import Mathlib

/-!
# Verification of the lwproxy admission-controlled relay engine

Shallow embedding of the byte-quota tracker (`enforce.BytesLimiter`,
`enforce.NoopBytesLimiter`), the condemned-address set
(`intercept.ControlPoint`), the intercepting listener/connection
(`intercept.Listener`, `intercept.Conn`, both the final variant and the
superseded ControlPoint variant), the proxy front dispatcher
(`proxy.ServeHTTP`) and the CONNECT tunnel handler
(`proxy.tunnelingHandler`), together with proofs of the specified
properties.
-/

namespace LWProxy

/-- Abstract error values.  `limitExceeded` embeds `enforce.ErrLimitExceeded`;
`other k` stands for any other distinct Go error value. -/
inductive Err where
  | limitExceeded
  | other (k : Nat)
deriving DecidableEq, Repr

/-! ## Quota: `enforce.BytesLimiter` backed by the in-memory counter

The in-memory database (`memory.DB`) holds a single `int64` counter;
`FetchBytes` returns it and never fails, `IncreaseBytes` adds the delta and
never fails.  `BytesLimiter.UseBytes` fetches the total, computes
`overflow := bytes + usedBytes > maxBytes`, unconditionally increments the
counter, and returns `ErrLimitExceeded` iff `overflow`. -/

/-- One `BytesLimiter.UseBytes(usedBytes)` call against the in-memory DB
whose counter currently holds `counter`: returns the call's error result and
the new counter value. -/
def useBytes (maxBytes counter usedBytes : Int) : Option Err × Int :=
  let overflow : Bool := counter + usedBytes > maxBytes
  (if overflow then some .limitExceeded else none, counter + usedBytes)

/-- A sequence of `UseBytes` calls, threading the in-memory counter; returns
the per-call results in order and the final counter value. -/
def useBytesRun (maxBytes counter : Int) : List Int → List (Option Err) × Int
  | [] => ([], counter)
  | n :: ns =>
      let step := useBytes maxBytes counter n
      let rest := useBytesRun maxBytes step.2 ns
      (step.1 :: rest.1, rest.2)

/-- Model of `BytesLimiter.CheckBytes` over a possibly failing counter fetch: a fetch
failure is propagated with a `false` verdict, otherwise the verdict is
`bytes < maxBytes`. -/
def checkBytes (fetch : Except Err Int) (maxBytes : Int) : Bool × Option Err :=
  match fetch with
  | .error e => (false, some e)
  | .ok bytes => (decide (bytes < maxBytes), none)

/-- Model of `NoopBytesLimiter.CheckBytes`. -/
def noopCheckBytes : Bool × Option Err := (true, none)

/-- Model of `NoopBytesLimiter.UseBytes`. -/
def noopUseBytes (_ : Int) : Option Err := none

/-- The limiter chosen by `proxy.NewProxy`. -/
inductive LimiterKind where
  | noop
  | real (maxBytes : Int)
deriving DecidableEq, Repr

/-- Model of the `proxy.NewProxy` limiter selection: a positive `MaxBytes` yields the real
`BytesLimiter`, anything else the no-op limiter. -/
def newProxyLimiter (maxBytes : Int) : LimiterKind :=
  if maxBytes > 0 then .real maxBytes else .noop

/-! ### Facts about `useBytesRun` -/

theorem useBytesRun_final (maxBytes counter : Int) (ns : List Int) :
    (useBytesRun maxBytes counter ns).2 = counter + ns.sum := by
  induction ns generalizing counter with
  | nil => simp [useBytesRun]
  | cons n ns ih =>
      simp [useBytesRun, useBytes, ih, List.sum_cons]
      ring

theorem useBytesRun_length (maxBytes counter : Int) (ns : List Int) :
    (useBytesRun maxBytes counter ns).1.length = ns.length := by
  induction ns generalizing counter with
  | nil => rfl
  | cons n ns ih => simp [useBytesRun, ih]

theorem useBytesRun_getElem (maxBytes counter : Int) (ns : List Int)
    (i : Nat) (h : i < ns.length) :
    (useBytesRun maxBytes counter ns).1[i]? =
      some (if counter + (ns.take (i + 1)).sum > maxBytes
            then some Err.limitExceeded else none) := by
  induction ns generalizing counter i with
  | nil => simp at h
  | cons n ns ih =>
      cases i with
      | zero =>
          simp [useBytesRun, useBytes]
      | succ i =>
          have h' : i < ns.length := by simpa using h
          simp only [useBytesRun, useBytes, List.getElem?_cons_succ,
            List.take_succ_cons, List.sum_cons]
          rw [ih (counter + n) i h', add_assoc]

/-! ### C1 -/

/-- The first index (if any) at which the running total of the sequence
reaches or exceeds the ceiling. -/
def firstHit (maxBytes : Int) (ns : List Int) : Option Nat :=
  (List.range ns.length).find? (fun i => decide ((ns.take (i + 1)).sum ≥ maxBytes))

/-- C1 exactly as the claim states it: on a fresh quota the final counter is
the sum of the deltas, the call whose running total first reaches or exceeds
the ceiling returns `LimitExceeded`, and no other call does. -/
def claimC1Statement (maxBytes : Int) (ns : List Int) : Prop :=
  (useBytesRun maxBytes 0 ns).2 = ns.sum ∧
  ∀ i, i < ns.length →
    (useBytesRun maxBytes 0 ns).1[i]? =
      some (if firstHit maxBytes ns = some i then some Err.limitExceeded else none)

/-- C1: the claim as stated fails on the code. With ceiling `5` and the single
call `Consume(5)` the running total reaches the ceiling exactly, so the claim
demands `LimitExceeded`, but `UseBytes` only errors on `bytes + n > maxBytes`
(strict), so the call returns no error. -/
theorem claimC1_counterexample : ¬ claimC1Statement 5 [5] := by
  unfold claimC1Statement firstHit
  decide

/-- C1 (amended): for every sequence of `Consume(n_i)` calls on a freshly
constructed Quota with ceiling `M` over the in-memory counter, the final
counter equals the sum of the `n_i`, and call `i` returns `LimitExceeded`
iff the running total after call `i` strictly exceeds `M`. -/
theorem useBytesRun_fresh_spec (maxBytes : Int) (ns : List Int) :
    (useBytesRun maxBytes 0 ns).2 = ns.sum ∧
    ∀ i, i < ns.length →
      (useBytesRun maxBytes 0 ns).1[i]? =
        some (if (ns.take (i + 1)).sum > maxBytes
              then some Err.limitExceeded else none) := by
  refine ⟨by simpa using useBytesRun_final maxBytes 0 ns, fun i h => ?_⟩
  simpa using useBytesRun_getElem maxBytes 0 ns i h

/-- Witness for `useBytesRun_fresh_spec` at `M = 5`, `ns = [4, 3]`: the second
call pushes the total to `7 > 5` and is the one that errors. -/
theorem useBytesRun_fresh_spec_witness :
    (useBytesRun 5 0 [4, 3]).2 = ([4, 3] : List Int).sum ∧
    (useBytesRun 5 0 [4, 3]).1[1]? =
      some (if (([4, 3] : List Int).take 2).sum > 5
            then some Err.limitExceeded else none) :=
  ⟨(useBytesRun_fresh_spec 5 [4, 3]).1,
   (useBytesRun_fresh_spec 5 [4, 3]).2 1 (by decide)⟩

/-- C6: `CheckBytes` answers `true` iff the fetched total is strictly below
the ceiling, and a fetch failure is propagated with the verdict `false`. -/
theorem checkBytes_spec (maxBytes total : Int) (e : Err) :
    ((checkBytes (.ok total) maxBytes).1 = true ↔ total < maxBytes) ∧
    (checkBytes (.ok total) maxBytes).2 = none ∧
    checkBytes (.error e) maxBytes = (false, some e) := by
  refine ⟨?_, rfl, rfl⟩
  simp [checkBytes]

/-! ## Admission Gate: `intercept.ControlPoint`

A set of remote-address strings backed by a Go map; `Add` inserts,
`HasRemove` tests membership and deletes in one locked operation, `Has`
tests membership. -/

/-- Model of `ControlPoint.Add`: map insertion (idempotent). -/
def cpAdd (cp : List String) (addr : String) : List String :=
  if addr ∈ cp then cp else addr :: cp

/-- Model of `ControlPoint.HasRemove`: reports membership and deletes the address. -/
def cpHasRemove (cp : List String) (addr : String) : Bool × List String :=
  (decide (addr ∈ cp), cp.filter (fun a => decide (a ≠ addr)))

/-- Model of `ControlPoint.Has`: membership test. -/
def cpHas (cp : List String) (addr : String) : Bool :=
  decide (addr ∈ cp)

/-- C7: after `Add(addr)`, `HasRemove(addr)` reports `true`, an immediate
second call reports `false`; `HasRemove` of an address not in the set
reports `false` and leaves the set unchanged. -/
theorem cpHasRemove_spec (cp : List String) (addr : String)
    (h : addr ∉ cp) :
    (cpHasRemove (cpAdd cp addr) addr).1 = true ∧
    (cpHasRemove ((cpHasRemove (cpAdd cp addr) addr).2) addr).1 = false ∧
    cpHasRemove cp addr = (false, cp) := by
  refine ⟨?_, ?_, ?_⟩
  · have hm : addr ∈ cpAdd cp addr := by
      unfold cpAdd
      split
      · assumption
      · exact List.mem_cons_self addr cp
    simpa [cpHasRemove] using hm
  · simp [cpHasRemove]
  · simp only [cpHasRemove, Prod.mk.injEq, decide_eq_false_iff_not]
    refine ⟨h, List.filter_eq_self.mpr fun a ha => ?_⟩
    simp only [decide_eq_true_eq]
    intro he
    exact h (he ▸ ha)

/-- Witness for `cpHasRemove_spec` on the empty set and address `"a"`. -/
theorem cpHasRemove_spec_witness :
    ("a" ∉ ([] : List String)) ∧
    ((cpHasRemove (cpAdd [] "a") "a").1 = true ∧
     (cpHasRemove ((cpHasRemove (cpAdd [] "a") "a").2) "a").1 = false ∧
     cpHasRemove [] "a" = (false, [])) :=
  ⟨by decide, cpHasRemove_spec [] "a" (by decide)⟩

/-! ## Final intercepting connection: `intercept.Conn` (listener.go)

`Read`/`Write` delegate to the underlying connection, which yields a byte
count and a possible error (both are environment inputs here, independent,
as in Go where a failing call may still report transferred bytes).  On an
underlying error the call returns `(0, err)` without metering; on success it
calls `UseBytes(n)` and on a limiter error returns `(0, err)`, otherwise
`(n, nil)`. -/

/-- One intercepted `Read`/`Write` of the final `intercept.Conn`:
`useBytesF` is the limiter's `UseBytes` keyed by the byte count, `(ioN,
ioErr)` the underlying I/O outcome.  Returns the call's `(count, error)`
result together with the list of `UseBytes` arguments issued. -/
def interceptRW (useBytesF : Nat → Option Err) (ioN : Nat) (ioErr : Option Err) :
    (Nat × Option Err) × List Nat :=
  match ioErr with
  | some e => ((0, some e), [])
  | none =>
      match useBytesF ioN with
      | some e => ((0, some e), [ioN])
      | none => ((ioN, none), [ioN])

/-- C5: an intercepted `Read`/`Write` consumes quota only when the
underlying I/O succeeded — on an underlying error no `UseBytes` call is
issued and the error is returned; on success exactly one `UseBytes` call is
issued with the transferred count, and any limiter error becomes the result
of the call itself (otherwise the count is returned unchanged). -/
theorem interceptRW_meter_spec (useBytesF : Nat → Option Err) (n : Nat) (e : Err) :
    interceptRW useBytesF n (some e) = ((0, some e), []) ∧
    interceptRW useBytesF n none =
      ((if (useBytesF n).isSome then 0 else n, useBytesF n), [n]) := by
  refine ⟨rfl, ?_⟩
  unfold interceptRW
  cases useBytesF n <;> simp

/-- C10: every intercepted `Read`/`Write` that returns an error reports a
byte count of `0`, whatever the underlying connection transferred. -/
theorem interceptRW_error_zero (useBytesF : Nat → Option Err) (n : Nat)
    (ioErr : Option Err)
    (h : ((interceptRW useBytesF n ioErr).1.2).isSome = true) :
    (interceptRW useBytesF n ioErr).1.1 = 0 := by
  unfold interceptRW at h ⊢
  cases ioErr with
  | some e => rfl
  | none =>
      cases hf : useBytesF n with
      | some e => simp [hf]
      | none => simp [hf] at h

/-- Witness for `interceptRW_error_zero`: the underlying write transfers `3`
bytes, the limiter reports `LimitExceeded`, and the call reports `0`. -/
theorem interceptRW_error_zero_witness :
    ((interceptRW (fun _ => some Err.limitExceeded) 3 none).1.2).isSome = true ∧
    (interceptRW (fun _ => some Err.limitExceeded) 3 none).1.1 = 0 :=
  ⟨rfl, interceptRW_error_zero (fun _ => some Err.limitExceeded) 3 none rfl⟩

/-! ## Final intercepting listener: `intercept.Listener.Accept` (listener.go) -/

/-- Body of the response written on a quota-check failure
(`_bytesLimitExceeded`). -/
def bytesLimitExceededBody : String := "bytes limit has been exceeded"

/-- Body of the response written on an exhausted quota
(`strings.ToLower(http.StatusText(http.StatusInternalServerError))`). -/
def internalServerErrorBody : String := "internal server error"

/-- Outcome of one final-variant `Accept` call. -/
structure AcceptResult where
  retErr : Option Err
  wrote : Option (Nat × String)
  closedConn : Bool
  wrappedConn : Bool
deriving DecidableEq, Repr

/-- Final `intercept.Listener.Accept`: propagate an underlying accept error;
on a quota-check error write the "internal error" response (status
`http.StatusPaymentRequired` = 402, body `_bytesLimitExceeded`), on an
exhausted quota write the "exceeded limit" response (status 402, body
lower-cased "Internal Server Error"); in both cases close the raw
connection and return it with a nil error so the serve loop keeps
accepting; otherwise return the metering wrapper. -/
def acceptFinal (acceptErr : Option Err) (check : Bool × Option Err) : AcceptResult :=
  match acceptErr with
  | some e => ⟨some e, none, false, false⟩
  | none =>
      match check with
      | (_, some _) => ⟨none, some (402, bytesLimitExceededBody), true, false⟩
      | (false, none) => ⟨none, some (402, internalServerErrorBody), true, false⟩
      | (true, none) => ⟨none, none, false, true⟩

/-- C4 (evaluation at the failing input): when the quota check itself fails,
`Accept` does write a synchronous response before closing and returns no
error — but the status written is 402 (Payment Required), not a 500-class
status, and the body is the "bytes limit has been exceeded" text. -/
theorem acceptFinal_checkError_eval :
    (acceptFinal none (false, some (Err.other 0))).wrote =
      some (402, bytesLimitExceededBody) ∧
    (acceptFinal none (false, some (Err.other 0))).closedConn = true ∧
    (acceptFinal none (false, some (Err.other 0))).retErr = none ∧
    ¬ (500 ≤ 402 ∧ 402 < 600) :=
  ⟨rfl, rfl, rfl, by decide⟩

/-! ## No-op limiter selection: `proxy.NewProxy` -/

/-- C8: a non-positive `MaxBytes` selects the no-op limiter, whose
`CheckBytes` always answers `(true, nil)` and whose `UseBytes` always
answers `nil`. -/
theorem newProxyLimiter_noop_spec (maxBytes : Int) (h : maxBytes ≤ 0) :
    newProxyLimiter maxBytes = .noop ∧
    noopCheckBytes = (true, none) ∧
    ∀ n : Int, noopUseBytes n = none := by
  refine ⟨?_, rfl, fun _ => rfl⟩
  unfold newProxyLimiter
  rw [if_neg (by omega)]

/-- Witness for `newProxyLimiter_noop_spec` at `MaxBytes = -3`, evaluating
the no-op `UseBytes` at the negative delta `-7`. -/
theorem newProxyLimiter_noop_witness :
    ((-3 : Int) ≤ 0) ∧ newProxyLimiter (-3) = .noop ∧
    noopCheckBytes = (true, none) ∧ noopUseBytes (-7) = none :=
  ⟨by decide, (newProxyLimiter_noop_spec (-3) (by decide)).1,
   (newProxyLimiter_noop_spec (-3) (by decide)).2.1,
   (newProxyLimiter_noop_spec (-3) (by decide)).2.2 (-7)⟩

/-! ## CONNECT tunnel: `proxy.tunnelingHandler` (handle.go) -/

/-- Observable steps of `tunnelingHandler`. -/
inductive TEv where
  | dialAttempt
  | respond (code : Nat)
  | write200
  | hijack
  | establish
deriving DecidableEq, Repr

/-- Model of `proxy.tunnelingHandler`: dial the target; on failure respond 503 and
stop; on success write the 200 status, then check hijack support (failure:
respond 500), take the raw connection (failure: respond 503), and establish
the bidirectional relay. -/
def tunnelingHandler (dialErr : Option Err) (hijackSupported : Bool)
    (hijackErr : Option Err) : List TEv :=
  match dialErr with
  | some _ => [.dialAttempt, .respond 503]
  | none =>
      match hijackSupported, hijackErr with
      | false, _ => [.dialAttempt, .write200, .respond 500]
      | true, some _ => [.dialAttempt, .write200, .hijack, .respond 503]
      | true, none => [.dialAttempt, .write200, .hijack, .establish]

/-- C9: on dial failure the handler responds 503 and does nothing else; on
dial success the 200 status line is written strictly before the hijack. -/
theorem tunnelingHandler_spec (e : Err) (hijackSupported : Bool)
    (hijackErr : Option Err) :
    tunnelingHandler (some e) hijackSupported hijackErr =
      [.dialAttempt, .respond 503] ∧
    (tunnelingHandler none hijackSupported hijackErr).indexOf .write200 <
      (tunnelingHandler none hijackSupported hijackErr).indexOf .hijack := by
  refine ⟨rfl, ?_⟩
  cases hijackSupported <;> cases hijackErr <;>
    first
      | decide
      | (simp only [tunnelingHandler]; decide)

/-! ## ControlPoint-variant listener, connection and proxy front

The superseded ControlPoint generation: `Listener.Accept` condemns the
remote address in the control point instead of closing; `Conn.Read`/`Write`
meter only while the address is NOT in the control point;
`Proxy.ServeHTTP` authenticates, records, then consumes the condemnation
with a 413 response.  The quota is the `BytesLimiter` over the in-memory
counter, so the quota check never fails. -/

/-- Shared mutable state of the ControlPoint generation: the condemned-set
contents and the in-memory byte counter. -/
structure CPState where
  cp : List String
  counter : Int
deriving DecidableEq, Repr

/-- Outcome of one ControlPoint-variant `Accept` call. -/
structure CPAcceptResult where
  wrappedConn : Bool
  closedConn : Bool
  s : CPState
deriving DecidableEq, Repr

/-- ControlPoint-variant `Listener.Accept` (in-memory DB, so `CheckBytes`
cannot fail): on an exhausted quota the remote address is added to the
control point; the wrapped connection is returned either way and the raw
connection is never closed here. -/
def acceptCP (maxBytes : Int) (addr : String) (s : CPState) : CPAcceptResult :=
  let ok := decide (s.counter < maxBytes)
  ⟨true, false, ⟨if ok then s.cp else cpAdd s.cp addr, s.counter⟩⟩

/-- ControlPoint-variant `Conn.Read`/`Conn.Write`: perform the underlying
I/O; on success, call `UseBytes(n)` only when the remote address is not in
the control point, propagating a limiter error as the call's error with a
zero count.  Returns the call's `(count, error)` result, the new shared
state, and whether `UseBytes` was called. -/
def connIOCP (maxBytes : Int) (addr : String) (s : CPState) (ioN : Nat)
    (ioErr : Option Err) : (Nat × Option Err) × CPState × Bool :=
  match ioErr with
  | some e => ((0, some e), s, false)
  | none =>
      if cpHas s.cp addr then ((ioN, none), s, false)
      else
        let r := useBytes maxBytes s.counter (ioN : Int)
        match r.1 with
        | some e => ((0, some e), ⟨s.cp, r.2⟩, true)
        | none => ((ioN, none), ⟨s.cp, r.2⟩, true)

/-- C2 exactly as the claim states it: an accept that sees an exhausted
quota condemns the address, does not close, returns a wrapped connection —
and no read or write on that connection ever consumes quota afterwards,
whatever the shared state has meanwhile become. -/
def claimC2Statement : Prop :=
  ∀ (maxBytes : Int) (addr : String) (s : CPState),
    ¬ s.counter < maxBytes →
    (acceptCP maxBytes addr s).closedConn = false ∧
    (acceptCP maxBytes addr s).wrappedConn = true ∧
    addr ∈ (acceptCP maxBytes addr s).s.cp ∧
    ∀ (s' : CPState) (n : Nat) (ioErr : Option Err),
      (connIOCP maxBytes addr s' n ioErr).2.2 = false

/-- C2: the claim as stated fails on the code.  Accept with ceiling `5` and
counter `10` condemns `"c"`; the proxy front's `HasRemove` then consumes the
condemnation (as `ServeHTTP` does before writing the 413 response), after
which a 3-byte write on the same connection does call `UseBytes`. -/
theorem claimC2_counterexample : ¬ claimC2Statement := fun h =>
  absurd
    ((h 5 "c" ⟨[], 10⟩ (by decide)).2.2.2
      ⟨(cpHasRemove (acceptCP 5 "c" ⟨[], 10⟩).s.cp "c").2, 10⟩ 3 none)
    (by decide)

/-- C2 (amended): on an exhausted quota, `Accept` condemns the remote
address, does not close the raw connection and returns the wrapped one; a
read or write on that connection skips metering (and leaves the shared
state untouched) exactly while the address remains in the control point,
and meters again once the address has been removed. -/
theorem acceptCP_condemned_spec (maxBytes : Int) (addr : String) (s : CPState)
    (h : ¬ s.counter < maxBytes) :
    (acceptCP maxBytes addr s).closedConn = false ∧
    (acceptCP maxBytes addr s).wrappedConn = true ∧
    addr ∈ (acceptCP maxBytes addr s).s.cp ∧
    (∀ (t : CPState) (n : Nat), cpHas t.cp addr = true →
      (connIOCP maxBytes addr t n none).2.2 = false ∧
      (connIOCP maxBytes addr t n none).2.1 = t) ∧
    (∀ (t : CPState) (n : Nat), cpHas t.cp addr = false →
      (connIOCP maxBytes addr t n none).2.2 = true ∧
      (connIOCP maxBytes addr t n none).2.1.counter = t.counter + n) := by
  refine ⟨rfl, rfl, ?_, ?_, ?_⟩
  · have hok : decide (s.counter < maxBytes) = false := by
      simpa using h
    have hm : addr ∈ cpAdd s.cp addr := by
      unfold cpAdd
      split
      · assumption
      · exact List.mem_cons_self addr s.cp
    simpa [acceptCP, hok] using hm
  · intro t n ht
    simp [connIOCP, ht]
  · intro t n ht
    unfold connIOCP
    rw [ht]
    simp only [Bool.false_eq_true, if_false]
    cases hr : (useBytes maxBytes t.counter (n : Int)).1 <;>
      simp [useBytes]

/-- Witness for `acceptCP_condemned_spec`: ceiling `5`, counter `10`,
address `"c"`; a write skips metering while `"c"` is condemned and meters
(counter `10 → 13`) once it is not. -/
theorem acceptCP_condemned_witness :
    (¬ (10 : Int) < 5) ∧
    (acceptCP 5 "c" ⟨[], 10⟩).closedConn = false ∧
    "c" ∈ (acceptCP 5 "c" ⟨[], 10⟩).s.cp ∧
    ((connIOCP 5 "c" ⟨["c"], 10⟩ 3 none).2.2 = false ∧
     (connIOCP 5 "c" ⟨["c"], 10⟩ 3 none).2.1 = ⟨["c"], 10⟩) ∧
    ((connIOCP 5 "c" ⟨[], 10⟩ 3 none).2.2 = true ∧
     (connIOCP 5 "c" ⟨[], 10⟩ 3 none).2.1.counter = 10 + 3) :=
  ⟨by decide,
   (acceptCP_condemned_spec 5 "c" ⟨[], 10⟩ (by decide)).1,
   (acceptCP_condemned_spec 5 "c" ⟨[], 10⟩ (by decide)).2.2.1,
   (acceptCP_condemned_spec 5 "c" ⟨[], 10⟩ (by decide)).2.2.2.1
     ⟨["c"], 10⟩ 3 (by decide),
   (acceptCP_condemned_spec 5 "c" ⟨[], 10⟩ (by decide)).2.2.2.2
     ⟨[], 10⟩ 3 (by decide)⟩

/-! ## ControlPoint-variant proxy front: `Proxy.ServeHTTP` -/

/-- Observable steps of `ServeHTTP`. -/
inductive PEv where
  | auth
  | record
  | condemnCheck
  | respond (code : Nat)
  | dial
deriving DecidableEq, Repr

/-- ControlPoint-variant `Proxy.ServeHTTP`: `handleAuth` first (`authFail`
carries its failure response code, `none` meaning authenticated), then the
record is handed to the recorder (a failure yields 400), then `HasRemove`
decides the 413 rejection, and only then is the request dispatched to the
tunneling or plain handler, both of which dial the target.  Returns the
event trace and the control point afterwards. -/
def serveHTTPCP (authFail : Option Nat) (recordErr : Option Err)
    (addr : String) (cp : List String) : List PEv × List String :=
  match authFail with
  | some code => ([.auth, .respond code], cp)
  | none =>
      match recordErr with
      | some _ => ([.auth, .record, .respond 400], cp)
      | none =>
          let hr := cpHasRemove cp addr
          if hr.1 then ([.auth, .record, .condemnCheck, .respond 413], hr.2)
          else ([.auth, .record, .condemnCheck, .dial], hr.2)

/-- C3 exactly as the claim states it: on a condemned address the 413-class
response comes first, and neither authentication nor record publication nor
a dispatch to the relay engine happens. -/
def claimC3Statement : Prop :=
  ∀ (authFail : Option Nat) (recordErr : Option Err) (addr : String)
    (cp : List String),
    addr ∈ cp →
    (serveHTTPCP authFail recordErr addr cp).1.head? = some (.respond 413) ∧
    PEv.auth ∉ (serveHTTPCP authFail recordErr addr cp).1 ∧
    PEv.record ∉ (serveHTTPCP authFail recordErr addr cp).1 ∧
    PEv.dial ∉ (serveHTTPCP authFail recordErr addr cp).1

/-- C3: the claim as stated fails on the code.  With address `"c"`
condemned, correct credentials and a healthy recorder, `ServeHTTP`
authenticates and records before the 413 response. -/
theorem claimC3_counterexample : ¬ claimC3Statement := fun h =>
  absurd ((h none none "c" ["c"] (by decide)).2.1) (by decide)

/-- C3 (amended): on a condemned address `ServeHTTP` responds 413 — after
authentication has succeeded and the record has been accepted, consuming
the condemnation — and never dispatches to the relay engine (no outbound
dial is attempted), whatever the authentication and recording outcomes. -/
theorem serveHTTPCP_condemned_spec (addr : String) (cp : List String)
    (h : addr ∈ cp) :
    (serveHTTPCP none none addr cp).1 =
      [.auth, .record, .condemnCheck, .respond 413] ∧
    addr ∉ (serveHTTPCP none none addr cp).2 ∧
    ∀ (authFail : Option Nat) (recordErr : Option Err),
      PEv.dial ∉ (serveHTTPCP authFail recordErr addr cp).1 := by
  have hd : decide (addr ∈ cp) = true := by simpa using h
  refine ⟨?_, ?_, ?_⟩
  · simp [serveHTTPCP, cpHasRemove, hd]
  · simp [serveHTTPCP, cpHasRemove, hd]
  · intro authFail recordErr
    cases authFail with
    | some code => simp [serveHTTPCP]
    | none =>
        cases recordErr with
        | some e => simp [serveHTTPCP]
        | none => simp [serveHTTPCP, cpHasRemove, hd]

/-- Witness for `serveHTTPCP_condemned_spec` at address `"c"` condemned in
the singleton control point, with a failing-auth dispatch also checked. -/
theorem serveHTTPCP_condemned_witness :
    ("c" ∈ ["c"]) ∧
    (serveHTTPCP none none "c" ["c"]).1 =
      [.auth, .record, .condemnCheck, .respond 413] ∧
    "c" ∉ (serveHTTPCP none none "c" ["c"]).2 ∧
    PEv.dial ∉ (serveHTTPCP (some 407) none "c" ["c"]).1 :=
  ⟨by decide,
   (serveHTTPCP_condemned_spec "c" ["c"] (by decide)).1,
   (serveHTTPCP_condemned_spec "c" ["c"] (by decide)).2.1,
   (serveHTTPCP_condemned_spec "c" ["c"] (by decide)).2.2 (some 407) none⟩

end LWProxy
